import Mathlib

set_option maxHeartbeats 1000000

/-!
Verification of the process-channel layer of macos-control-mcp.

The development shallowly embeds the two interpreter channels of the
repository:

* the persistent osascript channel (src/utils/applescript.ts, persistent
  mode: `getOsascriptProcess`, `runAppleScript`, `classifyError`), and
* the persistent Python helper channel (src/utils/python.ts:
  `startHelper`, `getHelper`, `runPython`, and the embedded
  `HELPER_SCRIPT` read-eval loop).

Pure stream-handler bodies become Lean functions over the accumulated
buffers; the event-driven parts (data chunks, timer fires, process exit
notifications) become explicit step functions over a machine state, run
over a list of events by a fold.  Strings are modelled at the character
level; the JavaScript string primitives the source uses (`indexOf`,
`includes`, `slice`, `trim`) are embedded below.
-/

/-! ## JavaScript string primitives used by the source -/

/-- Index (in characters) of the first occurrence of `pat` in the list,
scanning left to right; `none` when there is no occurrence.  Models the
search performed by JavaScript `String.prototype.indexOf`. -/
def firstIdx (pat : List Char) : List Char → Option Nat
  | [] => if pat.isPrefixOf ([] : List Char) then some 0 else none
  | c :: t =>
    if pat.isPrefixOf (c :: t) then some 0
    else (firstIdx pat t).map (· + 1)

/-- JS `hay.indexOf(pat)`, with `none` standing for `-1`. -/
def strIndexOf (hay pat : String) : Option Nat :=
  firstIdx pat.data hay.data

/-- JS `hay.includes(pat)`. -/
def strIncludes (hay pat : String) : Bool :=
  (strIndexOf hay pat).isSome

/-- JS `s.slice(0, n)`. -/
def strTake (s : String) (n : Nat) : String :=
  ⟨s.data.take n⟩

/-- JS `s.slice(n)`. -/
def strDrop (s : String) (n : Nat) : String :=
  ⟨s.data.drop n⟩

/-- Whitespace characters stripped by JS `String.prototype.trim` (the
ASCII ones plus no-break space; the streams in question carry ASCII). -/
def isJsSpace (c : Char) : Bool :=
  c = ' ' || c = '\t' || c = '\n' || c = '\r' || c = '\x0b' || c = '\x0c' || c = ' '

/-- JS `s.trim()`. -/
def jsTrim (s : String) : String :=
  ⟨((s.data.dropWhile isJsSpace).reverse.dropWhile isJsSpace).reverse⟩

/-! ## Script-engine channel: data model (src/utils/applescript.ts) -/

/-- The `kind` field of `AppleScriptError`
(src/utils/applescript.ts, class AppleScriptError). -/
inductive ASErrorKind
  | accessibility_denied
  | app_not_running
  | element_not_found
  | timeout
  | unknown
deriving Repr, DecidableEq

/-- `AppleScriptError`: a message plus a classification kind. -/
structure AppleScriptError where
  message : String
  kind : ASErrorKind
deriving Repr, DecidableEq

/-- `classifyError(stderr)` (src/utils/applescript.ts):
trims the diagnostic text and classifies it by ordered substring
matching — accessibility patterns first, then app-not-running patterns,
then element-not-found patterns, otherwise `unknown`. -/
def classifyError (stderr : String) : AppleScriptError :=
  let msg := jsTrim stderr
  if strIncludes msg "not allowed assistive access" || strIncludes msg "accessibility" then
    { message := "Accessibility permission denied. Enable this app in System Settings → Privacy & Security → Accessibility."
      kind := ASErrorKind.accessibility_denied }
  else if strIncludes msg "application isn\x27t running" || strIncludes msg "Application isn\x27t running" then
    { message := "Application is not running. Launch it first with launch_app."
      kind := ASErrorKind.app_not_running }
  else if strIncludes msg "Can\x27t get" || strIncludes msg "doesn\x27t understand" then
    { message := "Element not found: " ++ msg
      kind := ASErrorKind.element_not_found }
  else
    { message := if msg = "" then "Unknown AppleScript error" else msg
      kind := ASErrorKind.unknown }

/-- `TIMEOUT_MS` (src/utils/applescript.ts): the fixed per-call budget,
in milliseconds, used to arm the timeout timer of `runAppleScript`. -/
def TIMEOUT_MS : Nat := 10000

/-- The rejection produced by the `runAppleScript` timeout handler. -/
def asTimeoutError : AppleScriptError :=
  { message := "AppleScript timed out after 10 seconds.", kind := ASErrorKind.timeout }

/-- How one invocation of the `onStdout` handler leaves the pending call:
still pending, resolved with output text, or rejected with a classified
error. -/
inductive ASOutcome
  | pending
  | resolved (output : String)
  | rejected (e : AppleScriptError)
deriving Repr, DecidableEq

/-- Body of `runAppleScript`'s `onStdout` handler, as a function of the
accumulated stdout buffer (after appending the new chunk), the stderr
buffer accumulated so far, and the per-call sentinel: look for the
sentinel in the whole accumulated stdout; if absent, stay pending; if
present, reject with `classifyError(stderrBuf)` when the trimmed stderr
buffer is non-empty, otherwise resolve with the trimmed text preceding
the sentinel. -/
def asOnStdout (stdoutBuf stderrBuf sentinel : String) : ASOutcome :=
  match strIndexOf stdoutBuf sentinel with
  | none => ASOutcome.pending
  | some i =>
    if jsTrim stderrBuf ≠ "" then ASOutcome.rejected (classifyError stderrBuf)
    else ASOutcome.resolved (jsTrim (strTake stdoutBuf i))

/-! ## Script-engine channel: process supervisor (src/utils/applescript.ts) -/

/-- One spawned osascript process: its identity and whether it is still
alive (`exitCode === null` in the source). -/
structure ProcRec where
  id : Nat
  alive : Bool
deriving Repr, DecidableEq

/-- Supervisor state of the script-engine channel: the id that the next
spawn would get, the module-level cached handle `osaProcess` (by id), and
every process spawned so far, with liveness. -/
structure ASSup where
  nextId : Nat
  osaProcess : Option Nat
  procs : List ProcRec
deriving Repr, DecidableEq

/-- Whether the process with identity `pid` is currently alive. -/
def procAlive (s : ASSup) (pid : Nat) : Bool :=
  s.procs.any fun p => p.id == pid && p.alive

/-- Mark the process with identity `pid` as exited. -/
def killProc (s : ASSup) (pid : Nat) : ASSup :=
  { s with procs := s.procs.map fun p => if p.id == pid then { p with alive := false } else p }

/-- `getOsascriptProcess()` (src/utils/applescript.ts): if the cached
handle exists and its process has not exited, return it with no new
spawn; otherwise spawn a fresh process, cache it, and return it.  The
result carries the process returned to the caller, the supervisor state
afterwards, and whether a new process was spawned. -/
def getOsascriptProcess (s : ASSup) : Nat × ASSup × Bool :=
  match s.osaProcess with
  | some pid =>
    if procAlive s pid then (pid, s, false)
    else (s.nextId,
          { nextId := s.nextId + 1, osaProcess := some s.nextId,
            procs := ⟨s.nextId, true⟩ :: s.procs }, true)
  | none => (s.nextId,
             { nextId := s.nextId + 1, osaProcess := some s.nextId,
               procs := ⟨s.nextId, true⟩ :: s.procs }, true)

/-- Supervisor effect of `runAppleScript`'s timeout handler
(`proc.kill(); osaProcess = null`): the process serving the call dies and
the cached handle is cleared unconditionally. -/
def asOnTimeoutSup (s : ASSup) (pid : Nat) : ASSup :=
  { killProc s pid with osaProcess := none }

/-- Supervisor effect of the `exit` listener registered at spawn
(`osaProcess = null`): the exited process is dead and the handler clears
the module-level cached handle unconditionally — it does not check that
the cache still refers to the process that exited. -/
def asOnExitSup (s : ASSup) (pid : Nat) : ASSup :=
  { killProc s pid with osaProcess := none }

/-! ## Script-engine channel: one pending call as an event machine -/

/-- State of one in-flight `runAppleScript` call: the supervisor state,
the process serving the call, the per-call sentinel, the two accumulation
buffers, whether the listeners and timer registered by this call are still
attached (`cleanup()` detaches all three together), and the settlements
performed so far (a faithful execution settles at most once; the list lets
the development prove that). -/
structure ASMach where
  sup : ASSup
  callPid : Nat
  sentinel : String
  stdoutBuf : String
  stderrBuf : String
  active : Bool
  settled : List ASOutcome
deriving Repr, DecidableEq

/-- Events a pending `runAppleScript` call can experience: a chunk on the
output stream, a chunk on the side-channel stream, its timeout timer
firing, or delivery of an exit notification for some process. -/
inductive ASEvent
  | stdoutData (chunk : String)
  | stderrData (chunk : String)
  | timerFire
  | procExitEvt (pid : Nat)
deriving Repr, DecidableEq

/-- Initial state of a pending call: empty buffers, listeners attached,
nothing settled. -/
def asInit (sup : ASSup) (callPid : Nat) (sentinel : String) : ASMach :=
  { sup := sup, callPid := callPid, sentinel := sentinel,
    stdoutBuf := "", stderrBuf := "", active := true, settled := [] }

/-- One event step of a pending `runAppleScript` call, mirroring the
handlers registered in the source: `onStdout` appends the chunk and runs
the sentinel check on the whole accumulated buffer; `onStderr` appends;
the timer handler runs `cleanup()`, kills the call's process, clears the
cached handle and rejects with `timeout`; the spawn-time `exit` listener
only clears the cached handle (it never settles the pending call).
Handlers whose registration was removed by `cleanup()` do not run. -/
def asStep (m : ASMach) : ASEvent → ASMach
  | ASEvent.stdoutData c =>
    if m.active then
      match asOnStdout (m.stdoutBuf ++ c) m.stderrBuf m.sentinel with
      | ASOutcome.pending => { m with stdoutBuf := m.stdoutBuf ++ c }
      | ASOutcome.resolved o =>
        { m with stdoutBuf := m.stdoutBuf ++ c, active := false,
                 settled := m.settled ++ [ASOutcome.resolved o] }
      | ASOutcome.rejected e =>
        { m with stdoutBuf := m.stdoutBuf ++ c, active := false,
                 settled := m.settled ++ [ASOutcome.rejected e] }
    else m
  | ASEvent.stderrData c =>
    if m.active then { m with stderrBuf := m.stderrBuf ++ c } else m
  | ASEvent.timerFire =>
    if m.active then
      { m with sup := asOnTimeoutSup m.sup m.callPid, active := false,
               settled := m.settled ++ [ASOutcome.rejected asTimeoutError] }
    else m
  | ASEvent.procExitEvt pid =>
    { m with sup := asOnExitSup m.sup pid }

/-- Run a pending call over a list of events. -/
def asRun (m : ASMach) (es : List ASEvent) : ASMach :=
  es.foldl asStep m

/-! ## Code-execution channel: data model (src/utils/python.ts) -/

/-- One spawned Python helper process: identity, whether it is alive
(`exitCode === null`), and whether its `__READY__` marker line has been
observed on its stderr stream. -/
structure PyProc where
  id : Nat
  alive : Bool
  readySeen : Bool
deriving Repr, DecidableEq

/-- Supervisor state of the code-execution channel: next spawn id, the
module-level cached handle `helperProcess` (by id), and every process
spawned so far. -/
structure PySup where
  nextId : Nat
  helperProcess : Option Nat
  procs : List PyProc
deriving Repr, DecidableEq

/-- Whether helper process `pid` is currently alive. -/
def pyAlive (s : PySup) (pid : Nat) : Bool :=
  s.procs.any fun p => p.id == pid && p.alive

/-- Whether the `__READY__` marker of helper process `pid` has been
observed. -/
def pyReadySeen (s : PySup) (pid : Nat) : Bool :=
  s.procs.any fun p => p.id == pid && p.readySeen

/-- Mark helper process `pid` as exited. -/
def pyKillProc (s : PySup) (pid : Nat) : PySup :=
  { s with procs := s.procs.map fun p => if p.id == pid then { p with alive := false } else p }

/-- `getHelper()` (src/utils/python.ts): if the cached handle exists and
its process has not exited, return it immediately — with no readiness
check; otherwise run `startHelper()` and `await helperReady`, whose
promise resolves only once a stderr chunk containing `__READY__` has been
observed, so the spawn path returns a process whose marker has been seen
(`readySeen := true` records exactly that).  The result carries the
process, the supervisor state afterwards, and whether a spawn happened. -/
def getHelper (s : PySup) : Nat × PySup × Bool :=
  match s.helperProcess with
  | some pid =>
    if pyAlive s pid then (pid, s, false)
    else (s.nextId,
          { nextId := s.nextId + 1, helperProcess := some s.nextId,
            procs := ⟨s.nextId, true, true⟩ :: s.procs }, true)
  | none => (s.nextId,
             { nextId := s.nextId + 1, helperProcess := some s.nextId,
               procs := ⟨s.nextId, true, true⟩ :: s.procs }, true)

/-- Supervisor effect of the helper's spawn-time `exit` listener
(`helperProcess = null`): the exited process is dead and the handler
clears the module-level cached handle unconditionally. -/
def pyOnExitSup (s : PySup) (pid : Nat) : PySup :=
  { pyKillProc s pid with helperProcess := none }

/-- A decoded response record of the code-execution wire protocol:
`{ok: true, output}` or `{ok: false, error}`. -/
inductive PyResp
  | ok (output : String)
  | err (error : String)
deriving Repr, DecidableEq

/-! ### The JSON line codec of the code-execution channel -/

/-- The lowercase hexadecimal digit for a value below sixteen, as both
serializers print it in a `\u00XX` escape. -/
def hexDigitChar (n : Nat) : Char :=
  if n < 10 then Char.ofNat (48 + n) else Char.ofNat (87 + n)

/-- JSON string escaping as performed by both `JSON.stringify` (Node
side) and `json.dumps` (helper side) on the characters these streams
carry: backslash, double quote, and the control characters get escapes;
every other character stands for itself. -/
def jsonEscapeChar (c : Char) : List Char :=
  if c = '\\' then ['\\', '\\']
  else if c = '"' then ['\\', '"']
  else if c = '\n' then ['\\', 'n']
  else if c = '\r' then ['\\', 'r']
  else if c = '\t' then ['\\', 't']
  else if c = '\x08' then ['\\', 'b']
  else if c = '\x0c' then ['\\', 'f']
  else if c.toNat < 32 then
    ['\\', 'u', '0', '0', hexDigitChar (c.toNat / 16), hexDigitChar (c.toNat % 16)]
  else [c]

/-- A JSON string literal for `s`: opening quote, escaped characters,
closing quote. -/
def jsonQuote (s : String) : String :=
  ⟨'"' :: (s.data.map jsonEscapeChar).flatten ++ ['"']⟩

/-- Undo a single-character JSON escape (the escapes `jsonEscapeChar`
emits in short form, plus the solidus JSON allows). -/
def jsonUnescape (e : Char) : Option Char :=
  if e = '"' then some '"'
  else if e = '\\' then some '\\'
  else if e = '/' then some '/'
  else if e = 'n' then some '\n'
  else if e = 'r' then some '\r'
  else if e = 't' then some '\t'
  else if e = 'b' then some '\x08'
  else if e = 'f' then some '\x0c'
  else none

/-- Read the body of a JSON string literal (opening quote already
consumed), returning the decoded text and the rest of the input; fails on
input that is not a well-formed literal body. -/
def readStrBody : List Char → List Char → Option (String × List Char)
  | [], _ => none
  | '"' :: rest, acc => some (⟨acc.reverse⟩, rest)
  | '\\' :: [], _ => none
  | '\\' :: e :: rest, acc =>
    match jsonUnescape e with
    | some x => readStrBody rest (x :: acc)
    | none => none
  | c :: rest, acc => readStrBody rest (c :: acc)

/-- Read a JSON string literal, opening quote included. -/
def readStr : List Char → Option (String × List Char)
  | '"' :: rest => readStrBody rest []
  | _ => none

/-- Consume an exact literal from the front of the input. -/
def dropLit : List Char → List Char → Option (List Char)
  | [], cs => some cs
  | _ :: _, [] => none
  | l :: ls, c :: cs => if c = l then dropLit ls cs else none

/-- The `JSON.parse(line)` step of `runPython`'s `onData` handler,
restricted to the response-record grammar the helper emits (the exact
`json.dumps` shape `{"ok": true, "output": "..."}` or
`{"ok": false, "error": "..."}`); every other line is a decode failure.
The source additionally tolerates arbitrary JSON values, but the helper
never produces any, and none of the verified claims exercises them. -/
def decodeLine (line : String) : Option PyResp :=
  match dropLit "\x7b\"ok\": true, \"output\": ".data line.data with
  | some rest =>
    match readStr rest with
    | some (s, rest2) => if rest2 = ['}'] then some (PyResp.ok s) else none
    | none => none
  | none =>
    match dropLit "\x7b\"ok\": false, \"error\": ".data line.data with
    | some rest =>
      match readStr rest with
      | some (s, rest2) => if rest2 = ['}'] then some (PyResp.err s) else none
      | none => none
    | none => none

/-- `json.dumps` of a response record, as the `HELPER_SCRIPT` read-eval
loop writes it (default separators, keys in insertion order). -/
def pyDumps : PyResp → String
  | PyResp.ok o => "\x7b\"ok\": true, \"output\": " ++ jsonQuote o ++ "\x7d"
  | PyResp.err e => "\x7b\"ok\": false, \"error\": " ++ jsonQuote e ++ "\x7d"

/-- Outcome of `exec(code)` inside the helper: the text the code wrote to
its captured stdout, or the message of the exception it raised. -/
inductive ExecResult
  | captured (out : String)
  | raised (msg : String)
deriving Repr, DecidableEq

/-- Python `s.rstrip("\n")`: strip every trailing newline. -/
def rstripNl (s : String) : String :=
  ⟨(s.data.reverse.dropWhile (· = '\n')).reverse⟩

/-- One iteration of the `HELPER_SCRIPT` read-eval loop, given the
outcome of `exec(code)`: build `{"ok": True, "output": buf.getvalue().rstrip("\n")}`
on success or `{"ok": False, "error": str(e)}` on an exception, and write
exactly one newline-terminated `json.dumps` line to stdout. -/
def helperRespond : ExecResult → String
  | ExecResult.captured out => pyDumps (PyResp.ok (rstripNl out)) ++ "\n"
  | ExecResult.raised msg => pyDumps (PyResp.err msg) ++ "\n"

/-- `JSON.stringify({ code })` (src/utils/python.ts, `runPython`). -/
def stringifyRequest (code : String) : String :=
  "\x7b\"code\":" ++ jsonQuote code ++ "\x7d"

/-- The bytes `runPython` writes to the helper's stdin for one call:
`JSON.stringify({ code }) + "\n"`. -/
def writtenRequest (code : String) : String :=
  stringifyRequest code ++ "\n"

/-- Split a character stream into the newline-delimited records the
helper's `for line in sys.stdin` loop reads (the final element is the
still-unterminated tail). -/
def splitNl : List Char → List (List Char)
  | [] => [[]]
  | c :: t =>
    if c = '\n' then [] :: splitNl t
    else
      match splitNl t with
      | [] => [[c]]
      | r :: rs => (c :: r) :: rs

/-! ## Code-execution channel: one pending call as an event machine -/

/-- How a pending `runPython` call settles: `resolve(result.output)` or
`reject(new Error(message))` (the timeout rejection and the
`result.error` rejection both carry a plain message). -/
inductive PyOutcome
  | resolved (output : String)
  | rejectedMsg (message : String)
deriving Repr, DecidableEq

/-- State of one in-flight `runPython` call: supervisor state, the
process serving the call, the per-call accumulation buffer `buf`, whether
this call's stdout listener and timer are still attached (`cleanup()`
detaches both together), and the settlements performed so far. -/
structure PyMach where
  sup : PySup
  callPid : Nat
  buf : String
  active : Bool
  settled : List PyOutcome
deriving Repr, DecidableEq

/-- Events a pending `runPython` call can experience. -/
inductive PyEvent
  | dataChunk (chunk : String)
  | timerFire
  | procExitEvt (pid : Nat)
deriving Repr, DecidableEq

/-- Initial state of a pending `runPython` call. -/
def pyInit (sup : PySup) (callPid : Nat) : PyMach :=
  { sup := sup, callPid := callPid, buf := "", active := true, settled := [] }

/-- One event step of a pending `runPython` call, mirroring the source:
`onData` appends the chunk, looks for the first newline in the
accumulated buffer, and — at most once per data event — either decodes
the first complete line (on success `cleanup()` then settle by the `ok`
tag) or discards exactly that line (`buf = buf.slice(nlIdx + 1)`) and
returns without rescanning; the timer handler runs `cleanup()` and
rejects, touching neither the process nor the cached handle; the
spawn-time `exit` listener clears the cached handle and never settles
the call. -/
def pyStep (m : PyMach) : PyEvent → PyMach
  | PyEvent.dataChunk c =>
    if m.active then
      match strIndexOf (m.buf ++ c) "\n" with
      | none => { m with buf := m.buf ++ c }
      | some i =>
        match decodeLine (strTake (m.buf ++ c) i) with
        | some (PyResp.ok o) =>
          { m with buf := m.buf ++ c, active := false,
                   settled := m.settled ++ [PyOutcome.resolved o] }
        | some (PyResp.err e) =>
          { m with buf := m.buf ++ c, active := false,
                   settled := m.settled ++ [PyOutcome.rejectedMsg e] }
        | none => { m with buf := strDrop (m.buf ++ c) (i + 1) }
    else m
  | PyEvent.timerFire =>
    if m.active then
      { m with active := false,
               settled := m.settled ++ [PyOutcome.rejectedMsg "Python execution timed out"] }
    else m
  | PyEvent.procExitEvt pid =>
    { m with sup := pyOnExitSup m.sup pid }

/-- Run a pending `runPython` call over a list of events. -/
def pyRun (m : PyMach) (es : List PyEvent) : PyMach :=
  es.foldl pyStep m

/-! ## Script-engine channel: supervisor-level event traces -/

/-- Channel-lifetime events of the script-engine supervisor: a call
asking for a process (`getOsascriptProcess()`), a pending call's timeout
handler firing for the process that served it, and delivery of an exit
notification for a process. -/
inductive ASSupEvent
  | ensureProc
  | timeoutKill (pid : Nat)
  | procExitEvt (pid : Nat)
deriving Repr, DecidableEq

/-- One supervisor-level step. -/
def asSupStep (s : ASSup) : ASSupEvent → ASSup
  | ASSupEvent.ensureProc => (getOsascriptProcess s).2.1
  | ASSupEvent.timeoutKill pid => asOnTimeoutSup s pid
  | ASSupEvent.procExitEvt pid => asOnExitSup s pid

/-- Run the supervisor over a list of channel-lifetime events. -/
def asSupRun (s : ASSup) (es : List ASSupEvent) : ASSup :=
  es.foldl asSupStep s

/-- Number of currently live osascript processes. -/
def liveCount (s : ASSup) : Nat :=
  s.procs.countP (·.alive)

/-- An event trace of the script-engine channel that the host runtime can
produce: a first call spawns process 0; its timeout handler kills 0 and
clears the cache; a second call spawns process 1; the delayed `exit`
notification of process 0 is then delivered, and its unconditional
handler clears the cache even though the cache holds the live process 1;
a third call therefore spawns process 2 while process 1 is still
running. -/
def staleExitTrace : List ASSupEvent :=
  [ASSupEvent.ensureProc, ASSupEvent.timeoutKill 0, ASSupEvent.ensureProc,
   ASSupEvent.procExitEvt 0, ASSupEvent.ensureProc]

/-- The settlement the `onData` handler performs for a decoded response
record: `resolve(result.output)` or `reject(new Error(result.error))`. -/
def pySettleOf : PyResp → PyOutcome
  | PyResp.ok o => PyOutcome.resolved o
  | PyResp.err e => PyOutcome.rejectedMsg e

/-! ## Invariant predicates -/

/-- Settlement invariant of a pending `runAppleScript` call: either the
listeners are attached and nothing has settled, or `cleanup()` ran and
exactly one settlement happened. -/
def asInv (m : ASMach) : Prop :=
  (m.active = true ∧ m.settled = []) ∨ (m.active = false ∧ m.settled.length = 1)

/-- Settlement invariant of a pending `runPython` call. -/
def pyInv (m : PyMach) : Prop :=
  (m.active = true ∧ m.settled = []) ∨ (m.active = false ∧ m.settled.length = 1)

/-- Single-flight supervisor invariant of the code-execution channel:
whenever the cached handle refers to a live helper, that helper's
`__READY__` marker has been observed.  Strictly sequential calls maintain
this: the cache is only (re)filled by a `getHelper()` whose caller awaits
readiness before proceeding. -/
def pyReadyInv (s : PySup) : Prop :=
  ∀ pid, s.helperProcess = some pid → pyAlive s pid = true → pyReadySeen s pid = true

/-! ## Lemmas about the substring search -/

theorem isPrefixOf_nil_of_ne (pat : List Char) (h : pat ≠ []) :
    pat.isPrefixOf ([] : List Char) = false := by
  cases pat with
  | nil => exact absurd rfl h
  | cons a t => rfl

/-- A found index points at an occurrence. -/
theorem firstIdx_isPrefixOf_drop (pat : List Char) :
    ∀ (hay : List Char) (i : Nat), firstIdx pat hay = some i →
      pat.isPrefixOf (hay.drop i) = true := by
  intro hay
  induction hay with
  | nil =>
    intro i h
    simp only [firstIdx] at h
    split at h
    · next hp => cases h; exact hp
    · exact absurd h (by simp)
  | cons c t ih =>
    intro i h
    simp only [firstIdx] at h
    split at h
    · next hp => cases h; exact hp
    · next hp =>
      cases hm : firstIdx pat t with
      | none => rw [hm] at h; simp at h
      | some j =>
        rw [hm] at h
        simp only [Option.map_some'] at h
        cases h
        exact ih j hm

/-- A found index is the first occurrence: every earlier position is not
an occurrence. -/
theorem firstIdx_min (pat : List Char) :
    ∀ (hay : List Char) (i : Nat), firstIdx pat hay = some i →
      ∀ j, j < i → pat.isPrefixOf (hay.drop j) = false := by
  intro hay
  induction hay with
  | nil =>
    intro i h j hj
    simp only [firstIdx] at h
    split at h
    · cases h; omega
    · exact absurd h (by simp)
  | cons c t ih =>
    intro i h j hj
    simp only [firstIdx] at h
    split at h
    · cases h; omega
    · next hp =>
      cases hm : firstIdx pat t with
      | none => rw [hm] at h; simp at h
      | some k =>
        rw [hm] at h
        simp only [Option.map_some'] at h
        cases h
        cases j with
        | zero => exact Bool.eq_false_iff.mpr hp
        | succ j => exact ih k hm j (by omega)

/-- Position-wise absence of occurrences makes the search fail. -/
theorem firstIdx_eq_none (pat : List Char) :
    ∀ (l : List Char), (∀ j, pat.isPrefixOf (l.drop j) = false) →
      firstIdx pat l = none := by
  intro l
  induction l with
  | nil =>
    intro h
    have h0 : pat.isPrefixOf ([] : List Char) = false := h 0
    simp only [firstIdx]
    rw [if_neg (by rw [h0]; simp)]
  | cons c t ih =>
    intro h
    have h0 : pat.isPrefixOf (c :: t) = false := h 0
    simp only [firstIdx]
    rw [if_neg (by rw [h0]; simp), ih fun j => h (j + 1)]
    rfl

/-- A prefix of a `take` is a prefix of the whole list. -/
theorem isPrefixOf_of_isPrefixOf_take (pat : List Char) :
    ∀ (x : List Char) (k : Nat), pat.isPrefixOf (x.take k) = true →
      pat.isPrefixOf x = true := by
  induction pat with
  | nil => intro x k _; cases x <;> rfl
  | cons p ps ih =>
    intro x k h
    cases x with
    | nil => simp at h
    | cons a t =>
      cases k with
      | zero => simp at h
      | succ k =>
        simp only [List.take, List.isPrefixOf, Bool.and_eq_true] at h ⊢
        exact ⟨h.1, ih t k h.2⟩

/-- No occurrence of the pattern inside the strict prefix cut at the
first occurrence. -/
theorem firstIdx_take_eq_none (pat : List Char) (hpat : pat ≠ []) :
    ∀ (hay : List Char) (i : Nat),
      (∀ j, j < i → pat.isPrefixOf (hay.drop j) = false) →
      firstIdx pat (hay.take i) = none := by
  intro hay
  induction hay with
  | nil =>
    intro i _
    rw [List.take_nil]
    simp [firstIdx, isPrefixOf_nil_of_ne pat hpat]
  | cons c t ih =>
    intro i h
    cases i with
    | zero => simp [firstIdx, isPrefixOf_nil_of_ne pat hpat]
    | succ i =>
      simp only [List.take, firstIdx]
      have hc : ¬ pat.isPrefixOf (c :: List.take i t) = true := by
        intro hpre
        have hfull := isPrefixOf_of_isPrefixOf_take pat (c :: t) (i + 1) hpre
        have h0 : pat.isPrefixOf (c :: t) = false := h 0 (by omega)
        rw [h0] at hfull
        simp at hfull
      rw [if_neg hc, ih i fun j hj => h (j + 1) (by omega)]
      rfl

/-! ## Claim theorems -/

/-- C1: in persistent mode, when the per-call sentinel has been found in
the accumulated stdout and the side-channel (stderr) bytes accumulated in
the same window are non-empty after trimming, the `onStdout` handler of
`runAppleScript` rejects the call with the classified `AppleScriptError`
instead of resolving with the output text; the kind is chosen by ordered
substring matching on the trimmed diagnostic text — the accessibility
patterns are checked before the app-not-running patterns, those before
the element-not-found patterns, anything else is `unknown` — and in
particular diagnostic text containing "not allowed assistive access"
yields kind `accessibility_denied`. -/
theorem runAppleScript_diagnostic_precedence
    (stdoutBuf stderrBuf sentinel : String) (i : Nat)
    (hfound : strIndexOf stdoutBuf sentinel = some i)
    (herr : jsTrim stderrBuf ≠ "") :
    asOnStdout stdoutBuf stderrBuf sentinel = ASOutcome.rejected (classifyError stderrBuf)
    ∧ ((strIncludes (jsTrim stderrBuf) "not allowed assistive access"
        || strIncludes (jsTrim stderrBuf) "accessibility") = true →
        (classifyError stderrBuf).kind = ASErrorKind.accessibility_denied)
    ∧ ((strIncludes (jsTrim stderrBuf) "not allowed assistive access"
        || strIncludes (jsTrim stderrBuf) "accessibility") = false →
       (strIncludes (jsTrim stderrBuf) "application isn\x27t running"
        || strIncludes (jsTrim stderrBuf) "Application isn\x27t running") = true →
        (classifyError stderrBuf).kind = ASErrorKind.app_not_running)
    ∧ ((strIncludes (jsTrim stderrBuf) "not allowed assistive access"
        || strIncludes (jsTrim stderrBuf) "accessibility") = false →
       (strIncludes (jsTrim stderrBuf) "application isn\x27t running"
        || strIncludes (jsTrim stderrBuf) "Application isn\x27t running") = false →
       (strIncludes (jsTrim stderrBuf) "Can\x27t get"
        || strIncludes (jsTrim stderrBuf) "doesn\x27t understand") = true →
        (classifyError stderrBuf).kind = ASErrorKind.element_not_found)
    ∧ ((strIncludes (jsTrim stderrBuf) "not allowed assistive access"
        || strIncludes (jsTrim stderrBuf) "accessibility") = false →
       (strIncludes (jsTrim stderrBuf) "application isn\x27t running"
        || strIncludes (jsTrim stderrBuf) "Application isn\x27t running") = false →
       (strIncludes (jsTrim stderrBuf) "Can\x27t get"
        || strIncludes (jsTrim stderrBuf) "doesn\x27t understand") = false →
        (classifyError stderrBuf).kind = ASErrorKind.unknown)
    ∧ (strIncludes (jsTrim stderrBuf) "not allowed assistive access" = true →
        (classifyError stderrBuf).kind = ASErrorKind.accessibility_denied) := by
  refine ⟨?_, ?_, ?_, ?_, ?_, ?_⟩
  · simp only [asOnStdout, hfound]
    rw [if_pos herr]
  · intro hacc
    simp [classifyError, hacc]
  · intro hacc happ
    simp [classifyError, hacc, happ]
  · intro hacc happ helem
    simp [classifyError, hacc, happ, helem]
  · intro hacc happ helem
    simp [classifyError, hacc, happ, helem]
  · intro hacc
    simp [classifyError, hacc]

/-- Witness for C1: a concrete window where the sentinel was found in
stdout and stderr carried an assistive-access diagnostic. -/
theorem runAppleScript_diagnostic_precedence_witness :
    (strIndexOf "ok__OSASCRIPT_DONE___1" "__OSASCRIPT_DONE___1" = some 2
     ∧ jsTrim " not allowed assistive access " ≠ "")
    ∧ asOnStdout "ok__OSASCRIPT_DONE___1" " not allowed assistive access " "__OSASCRIPT_DONE___1"
        = ASOutcome.rejected (classifyError " not allowed assistive access ")
    ∧ (classifyError " not allowed assistive access ").kind = ASErrorKind.accessibility_denied :=
  ⟨⟨by decide, by decide⟩,
   (runAppleScript_diagnostic_precedence _ _ _ 2 (by decide) (by decide)).1,
   (runAppleScript_diagnostic_precedence "ok__OSASCRIPT_DONE___1"
      " not allowed assistive access " "__OSASCRIPT_DONE___1" 2
      (by decide) (by decide)).2.2.2.2.2 (by decide)⟩

/-- C2: in persistent mode, when the accumulated stdout contains the
token-qualified sentinel and the side-channel bytes of the window trim to
empty, the `onStdout` handler of `runAppleScript` resolves the call with
exactly the accumulated stdout text preceding the first occurrence of the
sentinel, trimmed; the resolved text contains no occurrence of the
sentinel (so no sentinel fragment is leaked), and the sentinel indeed
occurs at the cut position. -/
theorem runAppleScript_sentinel_boundary
    (stdoutBuf stderrBuf sentinel : String) (i : Nat)
    (hsent : sentinel ≠ "")
    (hfound : strIndexOf stdoutBuf sentinel = some i)
    (hquiet : jsTrim stderrBuf = "") :
    asOnStdout stdoutBuf stderrBuf sentinel
      = ASOutcome.resolved (jsTrim (strTake stdoutBuf i))
    ∧ strIncludes (strTake stdoutBuf i) sentinel = false
    ∧ sentinel.data.isPrefixOf ((strDrop stdoutBuf i).data) = true := by
  refine ⟨?_, ?_, ?_⟩
  · simp only [asOnStdout, hfound]
    rw [if_neg (by simp [hquiet])]
  · have hne : sentinel.data ≠ [] := by
      intro hnil
      exact hsent (String.ext (hnil.trans rfl))
    have hmin := firstIdx_min sentinel.data stdoutBuf.data i hfound
    have hnone := firstIdx_take_eq_none sentinel.data hne stdoutBuf.data i hmin
    simp only [strIncludes, strIndexOf, strTake, hnone, Option.isSome_none]
  · exact firstIdx_isPrefixOf_drop sentinel.data stdoutBuf.data i hfound

/-- Witness for C2: a concrete quiet window whose stdout carries output
text followed by the sentinel. -/
theorem runAppleScript_sentinel_boundary_witness :
    ("__S_1" ≠ "" ∧ strIndexOf "hi\n__S_1" "__S_1" = some 3 ∧ jsTrim " " = "")
    ∧ asOnStdout "hi\n__S_1" " " "__S_1"
        = ASOutcome.resolved (jsTrim (strTake "hi\n__S_1" 3))
    ∧ strIncludes (strTake "hi\n__S_1" 3) "__S_1" = false :=
  ⟨⟨by decide, by decide, by decide⟩,
   (runAppleScript_sentinel_boundary "hi\n__S_1" " " "__S_1" 3
      (by decide) (by decide) (by decide)).1,
   (runAppleScript_sentinel_boundary "hi\n__S_1" " " "__S_1" 3
      (by decide) (by decide) (by decide)).2.1⟩

/-! ## Lemmas about the script-engine call machine -/

theorem asStep_inactive (m : ASMach) (e : ASEvent) (h : m.active = false) :
    (asStep m e).active = false ∧ (asStep m e).settled = m.settled := by
  cases e <;> simp [asStep, h]

theorem asStep_inv (m : ASMach) (e : ASEvent) (h : asInv m) : asInv (asStep m e) := by
  rcases h with ⟨ha, hs⟩ | ⟨ha, hs⟩
  · cases e with
    | stdoutData c =>
      simp only [asStep, ha, if_true]
      cases asOnStdout (m.stdoutBuf ++ c) m.stderrBuf m.sentinel with
      | pending => exact Or.inl ⟨rfl, hs⟩
      | resolved o => exact Or.inr ⟨rfl, by simp [hs]⟩
      | rejected e2 => exact Or.inr ⟨rfl, by simp [hs]⟩
    | stderrData c =>
      simp only [asStep, ha, if_true]
      exact Or.inl ⟨rfl, hs⟩
    | timerFire =>
      simp only [asStep, ha, if_true]
      exact Or.inr ⟨rfl, by simp [hs]⟩
    | procExitEvt pid =>
      exact Or.inl ⟨ha, hs⟩
  · have hh := asStep_inactive m e ha
    exact Or.inr ⟨hh.1, by rw [hh.2]; exact hs⟩

theorem asRun_inv (m : ASMach) (es : List ASEvent) (h : asInv m) : asInv (asRun m es) := by
  induction es generalizing m with
  | nil => exact h
  | cons e rest ih => exact ih (asStep m e) (asStep_inv m e h)

theorem asRun_inactive (m : ASMach) (es : List ASEvent) (h : m.active = false) :
    (asRun m es).active = false ∧ (asRun m es).settled = m.settled := by
  induction es generalizing m with
  | nil => exact ⟨h, rfl⟩
  | cons e rest ih =>
    have h1 := asStep_inactive m e h
    have h2 := ih (asStep m e) h1.1
    exact ⟨h2.1, h2.2.trans h1.2⟩

theorem asRun_settled_le_one (m : ASMach) (es : List ASEvent) (h : asInv m) :
    (asRun m es).settled.length ≤ 1 := by
  rcases asRun_inv m es h with ⟨_, hs⟩ | ⟨_, hs⟩
  · simp [hs]
  · simp [hs]

theorem asRun_timer_settles (m : ASMach) (es : List ASEvent) (h : asInv m)
    (hmem : ASEvent.timerFire ∈ es) : (asRun m es).settled.length = 1 := by
  induction es generalizing m with
  | nil => cases hmem
  | cons e rest ih =>
    rcases List.mem_cons.mp hmem with he | he
    · subst he
      rcases h with ⟨ha, hs⟩ | ⟨ha, hs⟩
      · have hstep : (asStep m ASEvent.timerFire).active = false
            ∧ (asStep m ASEvent.timerFire).settled.length = 1 := by
          simp [asStep, ha, hs]
        have h2 := asRun_inactive (asStep m ASEvent.timerFire) rest hstep.1
        show (asRun (asStep m ASEvent.timerFire) rest).settled.length = 1
        rw [h2.2]
        exact hstep.2
      · have hstep := asStep_inactive m ASEvent.timerFire ha
        have h2 := asRun_inactive (asStep m ASEvent.timerFire) rest hstep.1
        show (asRun (asStep m ASEvent.timerFire) rest).settled.length = 1
        rw [h2.2, hstep.2, hs]
    · exact ih (asStep m e) (asStep_inv m e h) he

theorem asStep_callPid (m : ASMach) (e : ASEvent) : (asStep m e).callPid = m.callPid := by
  cases e with
  | stdoutData c =>
    by_cases ha : m.active = true
    · simp only [asStep, ha, if_true]
      cases asOnStdout (m.stdoutBuf ++ c) m.stderrBuf m.sentinel <;> rfl
    · simp only [asStep]
      rw [if_neg ha]
  | stderrData c =>
    by_cases ha : m.active = true
    · simp [asStep, ha]
    · simp only [asStep]; rw [if_neg ha]
  | timerFire =>
    by_cases ha : m.active = true
    · simp [asStep, ha]
    · simp only [asStep]; rw [if_neg ha]
  | procExitEvt pid => rfl

theorem asRun_callPid (m : ASMach) (es : List ASEvent) : (asRun m es).callPid = m.callPid := by
  induction es generalizing m with
  | nil => rfl
  | cons e rest ih => exact (ih (asStep m e)).trans (asStep_callPid m e)

theorem procAlive_killProc_self (s : ASSup) (pid : Nat) :
    procAlive (killProc s pid) pid = false := by
  simp only [procAlive, killProc, List.any_map]
  rw [List.any_eq_false]
  intro p hp
  by_cases h : p.id == pid
  · simp [Function.comp, h]
  · simp only [Function.comp, h]
    simp at h
    simp [h]

theorem getOsascript_spawns_of_none (s : ASSup) (h : s.osaProcess = none) :
    (getOsascriptProcess s).2.2 = true := by
  simp [getOsascriptProcess, h]

/-- C3: for a persistent-mode call whose events so far produced no
settlement (no sentinel observed within the budget), the timeout timer —
armed with the fixed `TIMEOUT_MS = 10000` millisecond budget — rejects
the call with an `AppleScriptError` of kind `timeout`, kills the
interpreter process serving the call, and clears the cached process
handle, so that the next `getOsascriptProcess()` spawns a fresh
interpreter process with no special caller action. -/
theorem runAppleScript_timeout_kills_and_respawns
    (sup : ASSup) (pid : Nat) (sent : String) (es : List ASEvent)
    (hpend : (asRun (asInit sup pid sent) es).settled = []) :
    (asRun (asInit sup pid sent) (es ++ [ASEvent.timerFire])).settled
        = [ASOutcome.rejected asTimeoutError]
    ∧ asTimeoutError.kind = ASErrorKind.timeout
    ∧ (asRun (asInit sup pid sent) (es ++ [ASEvent.timerFire])).sup.osaProcess = none
    ∧ procAlive (asRun (asInit sup pid sent) (es ++ [ASEvent.timerFire])).sup pid = false
    ∧ (getOsascriptProcess (asRun (asInit sup pid sent) (es ++ [ASEvent.timerFire])).sup).2.2 = true
    ∧ TIMEOUT_MS = 10000 := by
  have hsplit : asRun (asInit sup pid sent) (es ++ [ASEvent.timerFire])
      = asStep (asRun (asInit sup pid sent) es) ASEvent.timerFire := by
    simp [asRun, List.foldl_append]
  have hactive : (asRun (asInit sup pid sent) es).active = true := by
    rcases asRun_inv (asInit sup pid sent) es (Or.inl ⟨rfl, rfl⟩) with ⟨ha, _⟩ | ⟨_, hs⟩
    · exact ha
    · rw [hpend] at hs; simp at hs
  have hpid : (asRun (asInit sup pid sent) es).callPid = pid :=
    asRun_callPid (asInit sup pid sent) es
  rw [hsplit]
  simp only [asStep, hactive, if_true, hpend, hpid]
  refine ⟨rfl, rfl, rfl, ?_, ?_, rfl⟩
  · exact procAlive_killProc_self (asRun (asInit sup pid sent) es).sup pid
  · exact getOsascript_spawns_of_none _ rfl

/-- Witness for C3: one stdout chunk without the sentinel, then the
timer fires. -/
theorem runAppleScript_timeout_kills_and_respawns_witness :
    (asRun (asInit ⟨1, some 0, [⟨0, true⟩]⟩ 0 "__OSASCRIPT_DONE___1")
        [ASEvent.stdoutData "partial output"]).settled = []
    ∧ (asRun (asInit ⟨1, some 0, [⟨0, true⟩]⟩ 0 "__OSASCRIPT_DONE___1")
        ([ASEvent.stdoutData "partial output"] ++ [ASEvent.timerFire])).settled
        = [ASOutcome.rejected asTimeoutError]
    ∧ (asRun (asInit ⟨1, some 0, [⟨0, true⟩]⟩ 0 "__OSASCRIPT_DONE___1")
        ([ASEvent.stdoutData "partial output"] ++ [ASEvent.timerFire])).sup.osaProcess = none :=
  ⟨by decide,
   (runAppleScript_timeout_kills_and_respawns ⟨1, some 0, [⟨0, true⟩]⟩ 0 "__OSASCRIPT_DONE___1"
      [ASEvent.stdoutData "partial output"] (by decide)).1,
   (runAppleScript_timeout_kills_and_respawns ⟨1, some 0, [⟨0, true⟩]⟩ 0 "__OSASCRIPT_DONE___1"
      [ASEvent.stdoutData "partial output"] (by decide)).2.2.1⟩

/-! ## Lemmas about the code-execution call machine -/

theorem pyStep_inactive (m : PyMach) (e : PyEvent) (h : m.active = false) :
    (pyStep m e).active = false ∧ (pyStep m e).settled = m.settled := by
  cases e <;> simp [pyStep, h]

theorem pyStep_inv (m : PyMach) (e : PyEvent) (h : pyInv m) : pyInv (pyStep m e) := by
  rcases h with ⟨ha, hs⟩ | ⟨ha, hs⟩
  · cases e with
    | dataChunk c =>
      simp only [pyStep, ha, if_true]
      split
      · exact Or.inl ⟨rfl, hs⟩
      · split
        · exact Or.inr ⟨rfl, by simp [hs]⟩
        · exact Or.inr ⟨rfl, by simp [hs]⟩
        · exact Or.inl ⟨rfl, hs⟩
    | timerFire =>
      simp only [pyStep, ha, if_true]
      exact Or.inr ⟨rfl, by simp [hs]⟩
    | procExitEvt pid =>
      exact Or.inl ⟨ha, hs⟩
  · have hh := pyStep_inactive m e ha
    exact Or.inr ⟨hh.1, by rw [hh.2]; exact hs⟩

theorem pyRun_inv (m : PyMach) (es : List PyEvent) (h : pyInv m) : pyInv (pyRun m es) := by
  induction es generalizing m with
  | nil => exact h
  | cons e rest ih => exact ih (pyStep m e) (pyStep_inv m e h)

theorem pyRun_inactive (m : PyMach) (es : List PyEvent) (h : m.active = false) :
    (pyRun m es).active = false ∧ (pyRun m es).settled = m.settled := by
  induction es generalizing m with
  | nil => exact ⟨h, rfl⟩
  | cons e rest ih =>
    have h1 := pyStep_inactive m e h
    have h2 := ih (pyStep m e) h1.1
    exact ⟨h2.1, h2.2.trans h1.2⟩

theorem pyRun_settled_le_one (m : PyMach) (es : List PyEvent) (h : pyInv m) :
    (pyRun m es).settled.length ≤ 1 := by
  rcases pyRun_inv m es h with ⟨_, hs⟩ | ⟨_, hs⟩
  · simp [hs]
  · simp [hs]

theorem pyRun_timer_settles (m : PyMach) (es : List PyEvent) (h : pyInv m)
    (hmem : PyEvent.timerFire ∈ es) : (pyRun m es).settled.length = 1 := by
  induction es generalizing m with
  | nil => cases hmem
  | cons e rest ih =>
    rcases List.mem_cons.mp hmem with he | he
    · subst he
      rcases h with ⟨ha, hs⟩ | ⟨ha, hs⟩
      · have hstep : (pyStep m PyEvent.timerFire).active = false
            ∧ (pyStep m PyEvent.timerFire).settled.length = 1 := by
          simp [pyStep, ha, hs]
        have h2 := pyRun_inactive (pyStep m PyEvent.timerFire) rest hstep.1
        show (pyRun (pyStep m PyEvent.timerFire) rest).settled.length = 1
        rw [h2.2]
        exact hstep.2
      · have hstep := pyStep_inactive m PyEvent.timerFire ha
        have h2 := pyRun_inactive (pyStep m PyEvent.timerFire) rest hstep.1
        show (pyRun (pyStep m PyEvent.timerFire) rest).settled.length = 1
        rw [h2.2, hstep.2, hs]
    · exact ih (pyStep m e) (pyStep_inv m e h) he

theorem getHelper_cached (s : PySup) (q : Nat)
    (hc : s.helperProcess = some q) (ha : pyAlive s q = true) :
    getHelper s = (q, s, false) := by
  simp [getHelper, hc, ha]

/-- C4: for a `runPython` call whose events so far produced no settlement
(no decodable response line within the budget), the timeout rejects the
pending call with message "Python execution timed out" and detaches only
this call's stdout listener and timer (`cleanup()`); the supervisor state
is completely untouched — the helper process is not killed and the cached
handle is unchanged — so a subsequent `getHelper()` returns the same live
process with no new spawn. -/
theorem runPython_timeout_nondestructive
    (psup : PySup) (ppid : Nat) (pes : List PyEvent) (q : Nat)
    (hpend : (pyRun (pyInit psup ppid) pes).settled = [])
    (hc : (pyRun (pyInit psup ppid) pes).sup.helperProcess = some q)
    (ha : pyAlive (pyRun (pyInit psup ppid) pes).sup q = true) :
    (pyRun (pyInit psup ppid) (pes ++ [PyEvent.timerFire])).settled
        = [PyOutcome.rejectedMsg "Python execution timed out"]
    ∧ (pyRun (pyInit psup ppid) (pes ++ [PyEvent.timerFire])).sup
        = (pyRun (pyInit psup ppid) pes).sup
    ∧ (pyRun (pyInit psup ppid) (pes ++ [PyEvent.timerFire])).active = false
    ∧ getHelper (pyRun (pyInit psup ppid) (pes ++ [PyEvent.timerFire])).sup
        = (q, (pyRun (pyInit psup ppid) pes).sup, false) := by
  have hsplit : pyRun (pyInit psup ppid) (pes ++ [PyEvent.timerFire])
      = pyStep (pyRun (pyInit psup ppid) pes) PyEvent.timerFire := by
    simp [pyRun, List.foldl_append]
  have hactive : (pyRun (pyInit psup ppid) pes).active = true := by
    rcases pyRun_inv (pyInit psup ppid) pes (Or.inl ⟨rfl, rfl⟩) with ⟨h1, _⟩ | ⟨_, hs⟩
    · exact h1
    · rw [hpend] at hs; simp at hs
  rw [hsplit]
  refine ⟨?_, ?_, ?_, ?_⟩
  · simp [pyStep, hactive, hpend]
  · simp [pyStep, hactive]
  · simp [pyStep, hactive]
  · rw [show (pyStep (pyRun (pyInit psup ppid) pes) PyEvent.timerFire).sup
        = (pyRun (pyInit psup ppid) pes).sup from by simp [pyStep, hactive]]
    exact getHelper_cached _ q hc ha

/-- Witness for C4: a live cached helper, one undecodable partial chunk,
then the timer fires; the same helper is reused afterwards. -/
theorem runPython_timeout_nondestructive_witness :
    ((pyRun (pyInit ⟨1, some 0, [⟨0, true, true⟩]⟩ 0) [PyEvent.dataChunk "partial"]).settled = []
     ∧ (pyRun (pyInit ⟨1, some 0, [⟨0, true, true⟩]⟩ 0) [PyEvent.dataChunk "partial"]).sup.helperProcess = some 0
     ∧ pyAlive (pyRun (pyInit ⟨1, some 0, [⟨0, true, true⟩]⟩ 0) [PyEvent.dataChunk "partial"]).sup 0 = true)
    ∧ (pyRun (pyInit ⟨1, some 0, [⟨0, true, true⟩]⟩ 0)
        ([PyEvent.dataChunk "partial"] ++ [PyEvent.timerFire])).settled
        = [PyOutcome.rejectedMsg "Python execution timed out"]
    ∧ getHelper (pyRun (pyInit ⟨1, some 0, [⟨0, true, true⟩]⟩ 0)
        ([PyEvent.dataChunk "partial"] ++ [PyEvent.timerFire])).sup
        = (0, (pyRun (pyInit ⟨1, some 0, [⟨0, true, true⟩]⟩ 0) [PyEvent.dataChunk "partial"]).sup, false) :=
  ⟨⟨by decide, by decide, by decide⟩,
   (runPython_timeout_nondestructive ⟨1, some 0, [⟨0, true, true⟩]⟩ 0
      [PyEvent.dataChunk "partial"] 0 (by decide) (by decide) (by decide)).1,
   (runPython_timeout_nondestructive ⟨1, some 0, [⟨0, true, true⟩]⟩ 0
      [PyEvent.dataChunk "partial"] 0 (by decide) (by decide) (by decide)).2.2.2⟩

/-- C8: on either channel, a pending call settles at most once over any
sequence of events (later data, exits or timer fires after `cleanup()`
never settle it a second time), and any event sequence in which the
timeout timer fires settles it exactly once — whichever settlement event
comes first wins. -/
theorem channel_settles_exactly_once
    (sup : ASSup) (pid : Nat) (sent : String) (es : List ASEvent)
    (psup : PySup) (ppid : Nat) (pes : List PyEvent) :
    ((asRun (asInit sup pid sent) es).settled.length ≤ 1
      ∧ (ASEvent.timerFire ∈ es → (asRun (asInit sup pid sent) es).settled.length = 1))
    ∧ ((pyRun (pyInit psup ppid) pes).settled.length ≤ 1
      ∧ (PyEvent.timerFire ∈ pes → (pyRun (pyInit psup ppid) pes).settled.length = 1)) :=
  ⟨⟨asRun_settled_le_one _ _ (Or.inl ⟨rfl, rfl⟩),
    fun hmem => asRun_timer_settles _ _ (Or.inl ⟨rfl, rfl⟩) hmem⟩,
   ⟨pyRun_settled_le_one _ _ (Or.inl ⟨rfl, rfl⟩),
    fun hmem => pyRun_timer_settles _ _ (Or.inl ⟨rfl, rfl⟩) hmem⟩⟩

/-- Witness for C8: traces in which output that settles the call is
followed by a late timer fire and a late exit event still settle exactly
once. -/
theorem channel_settles_exactly_once_witness :
    (ASEvent.timerFire ∈ [ASEvent.stdoutData "ok__S_1", ASEvent.timerFire, ASEvent.procExitEvt 0]
     ∧ PyEvent.timerFire ∈
        [PyEvent.dataChunk "\x7b\"ok\": true, \"output\": \"hi\"\x7d\n", PyEvent.timerFire])
    ∧ (asRun (asInit ⟨1, some 0, [⟨0, true⟩]⟩ 0 "__S_1")
        [ASEvent.stdoutData "ok__S_1", ASEvent.timerFire, ASEvent.procExitEvt 0]).settled.length = 1
    ∧ (pyRun (pyInit ⟨1, some 0, [⟨0, true, true⟩]⟩ 0)
        [PyEvent.dataChunk "\x7b\"ok\": true, \"output\": \"hi\"\x7d\n", PyEvent.timerFire]).settled.length = 1 :=
  ⟨⟨by decide, by decide⟩,
   (channel_settles_exactly_once ⟨1, some 0, [⟨0, true⟩]⟩ 0 "__S_1"
      [ASEvent.stdoutData "ok__S_1", ASEvent.timerFire, ASEvent.procExitEvt 0]
      ⟨1, some 0, [⟨0, true, true⟩]⟩ 0
      [PyEvent.dataChunk "\x7b\"ok\": true, \"output\": \"hi\"\x7d\n", PyEvent.timerFire]).1.2 (by decide),
   (channel_settles_exactly_once ⟨1, some 0, [⟨0, true⟩]⟩ 0 "__S_1"
      [ASEvent.stdoutData "ok__S_1", ASEvent.timerFire, ASEvent.procExitEvt 0]
      ⟨1, some 0, [⟨0, true, true⟩]⟩ 0
      [PyEvent.dataChunk "\x7b\"ok\": true, \"output\": \"hi\"\x7d\n", PyEvent.timerFire]).2.2 (by decide)⟩

/-! ## Lemmas about line framing on the code-execution channel -/

theorem strData_append (a b : String) : (a ++ b).data = a.data ++ b.data := by
  cases a; cases b; rfl

theorem firstIdx_single_append (c : Char) (l : List Char) (h : c ∉ l) :
    firstIdx [c] (l ++ [c]) = some l.length := by
  induction l with
  | nil =>
    show firstIdx [c] [c] = some 0
    simp [firstIdx, List.isPrefixOf]
  | cons a t ih =>
    have hne : (c == a) = false :=
      beq_eq_false_iff_ne.mpr fun hca => h (by rw [hca]; exact List.mem_cons_self a t)
    show firstIdx [c] (a :: (t ++ [c])) = some (t.length + 1)
    simp only [firstIdx]
    rw [if_neg (by simp [List.isPrefixOf, hne]),
        ih fun hm => h (List.mem_cons_of_mem a hm)]
    rfl

/-- A data event delivering one whole newline-terminated line on top of
an empty buffer: the handler finds the newline exactly at the end, so the
candidate line is `line` itself. -/
theorem strIndexOf_line (line : String) (hnl : '\n' ∉ line.data) :
    strIndexOf (line ++ "\n") "\n" = some line.data.length := by
  show firstIdx ['\n'] ((line ++ "\n").data) = some line.data.length
  rw [strData_append]
  exact firstIdx_single_append '\n' line.data hnl

/-- Cutting at that newline recovers the line. -/
theorem strTake_line (line : String) :
    strTake (line ++ "\n") line.data.length = line := by
  show (⟨((line ++ "\n").data).take line.data.length⟩ : String) = line
  rw [strData_append]
  show (⟨(line.data ++ ("\n").data).take line.data.length⟩ : String) = line
  rw [List.take_left]

/-- Dropping past that newline empties the buffer. -/
theorem strDrop_line (line : String) :
    strDrop (line ++ "\n") (line.data.length + 1) = "" := by
  show (⟨((line ++ "\n").data).drop (line.data.length + 1)⟩ : String) = ""
  rw [strData_append]
  show (⟨(line.data ++ ['\n']).drop (line.data.length + 1)⟩ : String) = ""
  rw [List.drop_eq_nil_of_le (by simp)]

/-- `onData` on an active call with an empty buffer, receiving one whole
newline-terminated undecodable line: the handler discards exactly that
line, stays pending and keeps listening with an empty buffer. -/
theorem pyStep_discard_line (m : PyMach) (line : String)
    (hactive : m.active = true) (hbuf : m.buf = "")
    (hnl : '\n' ∉ line.data) (hdec : decodeLine line = none) :
    pyStep m (PyEvent.dataChunk (line ++ "\n")) = { m with buf := "" } := by
  have hm : m.buf ++ (line ++ "\n") = line ++ "\n" := by
    rw [hbuf]; cases (line ++ "\n"); rfl
  simp only [pyStep, hactive, if_true, hm, strIndexOf_line line hnl,
    strTake_line line, hdec, strDrop_line line]

/-- `onData` on an active call with an empty buffer, receiving one whole
newline-terminated decodable line: the handler runs `cleanup()` and
settles by the `ok` tag. -/
theorem pyStep_settle_line (m : PyMach) (line : String) (r : PyResp)
    (hactive : m.active = true) (hbuf : m.buf = "")
    (hnl : '\n' ∉ line.data) (hdec : decodeLine line = some r) :
    pyStep m (PyEvent.dataChunk (line ++ "\n"))
      = { m with buf := m.buf ++ (line ++ "\n"), active := false,
                 settled := m.settled ++ [pySettleOf r] } := by
  have hm : m.buf ++ (line ++ "\n") = line ++ "\n" := by
    rw [hbuf]; cases (line ++ "\n"); rfl
  cases r with
  | ok o =>
    simp only [pyStep, hactive, if_true, hm, strIndexOf_line line hnl,
      strTake_line line, hdec, pySettleOf]
  | err e =>
    simp only [pyStep, hactive, if_true, hm, strIndexOf_line line hnl,
      strTake_line line, hdec, pySettleOf]

/-- C5: `runPython` writes its request line only to the process that
`getHelper()` returns, and under the single-flight supervisor invariant
`pyReadyInv` (maintained by strictly sequential calls) that process has
had its `__READY__` marker observed on its stderr stream: the spawn path
of `getHelper()` resolves only after the marker appears, and the cached
path returns a process an earlier call already awaited.  The invariant is
preserved, so every sequential call writes only after readiness. -/
theorem runPython_writes_only_after_ready (s : PySup) (hinv : pyReadyInv s) :
    pyReadySeen (getHelper s).2.1 (getHelper s).1 = true
    ∧ pyReadyInv (getHelper s).2.1 := by
  cases hc : s.helperProcess with
  | none =>
    refine ⟨by simp [getHelper, hc, pyReadySeen], ?_⟩
    intro pid hp _
    simp only [getHelper, hc] at hp
    injection hp with hp2
    subst hp2
    simp [getHelper, hc, pyReadySeen]
  | some p =>
    by_cases hal : pyAlive s p = true
    · rw [getHelper_cached s p hc hal]
      exact ⟨hinv p hc hal, hinv⟩
    · have hne : pyAlive s p = false := Bool.eq_false_iff.mpr hal
      refine ⟨by simp [getHelper, hc, hne, pyReadySeen], ?_⟩
      intro pid hp _
      simp only [getHelper, hc, hne] at hp
      injection hp with hp2
      subst hp2
      simp [getHelper, hc, hne, pyReadySeen]

/-- Witness for C5: a first call on an empty channel spawns the helper
and the process handed back has its readiness marker observed. -/
theorem runPython_writes_only_after_ready_witness :
    pyReadySeen (getHelper ⟨0, none, []⟩).2.1 (getHelper ⟨0, none, []⟩).1 = true :=
  (runPython_writes_only_after_ready ⟨0, none, []⟩
    (fun _ hp _ => Option.noConfusion hp)).1

/-- C6 counterexample: a malformed line and a valid response line
arriving in the same data chunk.  The handler discards the malformed
line but — processing at most one line per data event, without
rescanning — leaves the valid line sitting in the buffer, so with no
further data the call is settled by its timeout rejection, not by the
valid line. -/
theorem runPython_same_chunk_resync_fails :
    decodeLine "notjson" = none
    ∧ decodeLine "\x7b\"ok\": true, \"output\": \"hi\"\x7d" = some (PyResp.ok "hi")
    ∧ (pyRun (pyInit ⟨1, some 0, [⟨0, true, true⟩]⟩ 0)
        [PyEvent.dataChunk "notjson\n\x7b\"ok\": true, \"output\": \"hi\"\x7d\n",
         PyEvent.timerFire]).settled
        = [PyOutcome.rejectedMsg "Python execution timed out"]
    ∧ (pyRun (pyInit ⟨1, some 0, [⟨0, true, true⟩]⟩ 0)
        [PyEvent.dataChunk "notjson\n\x7b\"ok\": true, \"output\": \"hi\"\x7d\n",
         PyEvent.timerFire]).settled
        ≠ [PyOutcome.resolved "hi"] := by
  refine ⟨by decide, by decide, by decide, by decide⟩

/-- C6 (amended): when the first complete line of the buffer fails to
decode, exactly that line is discarded and accumulation continues with
the listener still attached; a valid response line arriving in a *later*
data chunk settles the call according to that line.  (If the valid line
arrives in the same chunk as the malformed one it stays buffered until a
further data event, because the handler processes at most one line per
event.) -/
theorem runPython_resync_discards_line
    (psup : PySup) (ppid : Nat) (bad good : String) (r : PyResp)
    (hbadnl : '\n' ∉ bad.data) (hgoodnl : '\n' ∉ good.data)
    (hbad : decodeLine bad = none) (hgood : decodeLine good = some r) :
    (pyRun (pyInit psup ppid) [PyEvent.dataChunk (bad ++ "\n")]).settled = []
    ∧ (pyRun (pyInit psup ppid) [PyEvent.dataChunk (bad ++ "\n")]).buf = ""
    ∧ (pyRun (pyInit psup ppid) [PyEvent.dataChunk (bad ++ "\n")]).active = true
    ∧ (pyRun (pyInit psup ppid)
        [PyEvent.dataChunk (bad ++ "\n"), PyEvent.dataChunk (good ++ "\n")]).settled
        = [pySettleOf r] := by
  have h1 : pyStep (pyInit psup ppid) (PyEvent.dataChunk (bad ++ "\n"))
      = { pyInit psup ppid with buf := "" } :=
    pyStep_discard_line _ bad rfl rfl hbadnl hbad
  have h2 := pyStep_settle_line { pyInit psup ppid with buf := "" } good r rfl rfl hgoodnl hgood
  refine ⟨?_, ?_, ?_, ?_⟩
  · show (pyStep (pyInit psup ppid) (PyEvent.dataChunk (bad ++ "\n"))).settled = []
    rw [h1]
    rfl
  · show (pyStep (pyInit psup ppid) (PyEvent.dataChunk (bad ++ "\n"))).buf = ""
    rw [h1]
  · show (pyStep (pyInit psup ppid) (PyEvent.dataChunk (bad ++ "\n"))).active = true
    rw [h1]
    rfl
  · show (pyStep (pyStep (pyInit psup ppid) (PyEvent.dataChunk (bad ++ "\n")))
        (PyEvent.dataChunk (good ++ "\n"))).settled = [pySettleOf r]
    rw [h1, h2]
    rfl

/-- Witness for C6 (amended): the malformed line in one chunk, the valid
line in the next chunk. -/
theorem runPython_resync_discards_line_witness :
    ('\n' ∉ ("notjson" : String).data
     ∧ decodeLine "notjson" = none
     ∧ decodeLine "\x7b\"ok\": true, \"output\": \"hi\"\x7d" = some (PyResp.ok "hi"))
    ∧ (pyRun (pyInit ⟨1, some 0, [⟨0, true, true⟩]⟩ 0)
        [PyEvent.dataChunk ("notjson" ++ "\n"),
         PyEvent.dataChunk ("\x7b\"ok\": true, \"output\": \"hi\"\x7d" ++ "\n")]).settled
        = [pySettleOf (PyResp.ok "hi")] :=
  ⟨⟨by decide, by decide, by decide⟩,
   (runPython_resync_discards_line ⟨1, some 0, [⟨0, true, true⟩]⟩ 0 "notjson"
      "\x7b\"ok\": true, \"output\": \"hi\"\x7d" (PyResp.ok "hi")
      (by decide) (by decide) (by decide) (by decide)).2.2.2⟩

/-- C7: when the first decodable response line carries `ok: true` the
call resolves with its `output`; when it carries `ok: false` the call
rejects with an error whose message is its `error`.  Concretely, for code
whose execution captures stdout "hi\n", the helper loop emits
`{"ok": true, "output": "hi"}` (trailing newline stripped) and the call
resolves with "hi"; for code raising with message "boom" it emits
`{"ok": false, "error": "boom"}` and the call rejects with message
"boom". -/
theorem runPython_settles_by_ok_tag
    (psup : PySup) (ppid : Nat) (line o e : String)
    (hnl : '\n' ∉ line.data) :
    (decodeLine line = some (PyResp.ok o) →
      (pyRun (pyInit psup ppid) [PyEvent.dataChunk (line ++ "\n")]).settled
        = [PyOutcome.resolved o])
    ∧ (decodeLine line = some (PyResp.err e) →
      (pyRun (pyInit psup ppid) [PyEvent.dataChunk (line ++ "\n")]).settled
        = [PyOutcome.rejectedMsg e])
    ∧ helperRespond (ExecResult.captured "hi\n") = "\x7b\"ok\": true, \"output\": \"hi\"\x7d\n"
    ∧ helperRespond (ExecResult.raised "boom") = "\x7b\"ok\": false, \"error\": \"boom\"\x7d\n"
    ∧ (pyRun (pyInit ⟨1, some 0, [⟨0, true, true⟩]⟩ 0)
        [PyEvent.dataChunk (helperRespond (ExecResult.captured "hi\n"))]).settled
        = [PyOutcome.resolved "hi"]
    ∧ (pyRun (pyInit ⟨1, some 0, [⟨0, true, true⟩]⟩ 0)
        [PyEvent.dataChunk (helperRespond (ExecResult.raised "boom"))]).settled
        = [PyOutcome.rejectedMsg "boom"] := by
  refine ⟨?_, ?_, by decide, by decide, by decide, by decide⟩
  · intro hd
    show (pyStep (pyInit psup ppid) (PyEvent.dataChunk (line ++ "\n"))).settled
        = [PyOutcome.resolved o]
    rw [pyStep_settle_line (pyInit psup ppid) line (PyResp.ok o) rfl rfl hnl hd]
    rfl
  · intro hd
    show (pyStep (pyInit psup ppid) (PyEvent.dataChunk (line ++ "\n"))).settled
        = [PyOutcome.rejectedMsg e]
    rw [pyStep_settle_line (pyInit psup ppid) line (PyResp.err e) rfl rfl hnl hd]
    rfl

/-- Witness for C7: the error record settles the call with the raised
message. -/
theorem runPython_settles_by_ok_tag_witness :
    ('\n' ∉ ("\x7b\"ok\": false, \"error\": \"boom\"\x7d" : String).data
     ∧ decodeLine "\x7b\"ok\": false, \"error\": \"boom\"\x7d" = some (PyResp.err "boom"))
    ∧ (pyRun (pyInit ⟨1, some 0, [⟨0, true, true⟩]⟩ 0)
        [PyEvent.dataChunk ("\x7b\"ok\": false, \"error\": \"boom\"\x7d" ++ "\n")]).settled
        = [PyOutcome.rejectedMsg "boom"] :=
  ⟨⟨by decide, by decide⟩,
   (runPython_settles_by_ok_tag ⟨1, some 0, [⟨0, true, true⟩]⟩ 0
      "\x7b\"ok\": false, \"error\": \"boom\"\x7d" "x" "boom" (by decide)).2.1 (by decide)⟩

/-- C9: evaluation of the script-engine supervisor at a realizable event
trace on which the channel ends up with TWO live interpreter processes —
refuting the at-most-one-live-process invariant.  After a timeout kill of
process 0 and a respawn (process 1), the delayed exit notification of
process 0 runs the unconditional `osaProcess = null` handler, evicting
live process 1 from the cache; the next call then spawns process 2 while
process 1 is still alive. -/
theorem supervisor_two_live_processes :
    liveCount (asSupRun ⟨0, none, []⟩ staleExitTrace) = 2
    ∧ procAlive (asSupRun ⟨0, none, []⟩ staleExitTrace) 1 = true
    ∧ procAlive (asSupRun ⟨0, none, []⟩ staleExitTrace) 2 = true
    ∧ (asSupRun ⟨0, none, []⟩ staleExitTrace).osaProcess = some 2 := by
  refine ⟨by decide, by decide, by decide, by decide⟩

/-! ## Lemmas about request serialization -/

theorem hexDigitChar_ne_newline (n : Nat) (hn : n < 16) : hexDigitChar n ≠ '\n' := by
  interval_cases n <;> decide

theorem newline_not_in_jsonEscapeChar (c : Char) : '\n' ∉ jsonEscapeChar c := by
  unfold jsonEscapeChar
  split_ifs with h1 h2 h3 h4 h5 h6 h7 h8
  · decide
  · decide
  · decide
  · decide
  · decide
  · decide
  · decide
  · intro hmem
    simp only [List.mem_cons, List.mem_singleton] at hmem
    rcases hmem with h | h | h | h | h | h | h
    · exact absurd h (by decide)
    · exact absurd h (by decide)
    · exact absurd h (by decide)
    · exact absurd h (by decide)
    · exact hexDigitChar_ne_newline (c.toNat / 16) (by omega) h.symm
    · exact hexDigitChar_ne_newline (c.toNat % 16) (by omega) h.symm
    · exact absurd h (List.not_mem_nil '\n')
  · intro hmem
    simp only [List.mem_singleton] at hmem
    exact h3 hmem.symm

theorem newline_not_in_jsonQuote (s : String) : '\n' ∉ (jsonQuote s).data := by
  intro hmem
  have hmem2 : '\n' ∈ ('"' :: ((s.data.map jsonEscapeChar).flatten ++ ['"'])) := hmem
  rcases List.mem_cons.mp hmem2 with h | h
  · exact absurd h (by decide)
  · rcases List.mem_append.mp h with h | h
    · obtain ⟨l, hl, hin⟩ := List.mem_flatten.mp h
      obtain ⟨c, _, rfl⟩ := List.mem_map.mp hl
      exact newline_not_in_jsonEscapeChar c hin
    · exact absurd h (by decide)

theorem splitNl_append_newline (l : List Char) (h : '\n' ∉ l) :
    splitNl (l ++ ['\n']) = [l, []] := by
  induction l with
  | nil => decide
  | cons a t ih =>
    have hne : a ≠ '\n' := fun he => h (he ▸ List.mem_cons_self a t)
    show splitNl (a :: (t ++ ['\n'])) = [a :: t, []]
    simp only [splitNl]
    rw [if_neg hne, ih fun hm => h (List.mem_cons_of_mem a hm)]

/-- C10: for every code string — including code containing newline
characters — the request `runPython` writes to the helper's stdin is
exactly one newline-terminated line: the JSON serialization of
`{ code }` contains no raw newline (embedded newlines are escaped), the
written bytes are that line followed by a single newline (the only
newline written), and the helper's one-line-per-record reader therefore
receives the whole request as exactly one complete record. -/
theorem runPython_request_single_line (code : String) :
    '\n' ∉ (stringifyRequest code).data
    ∧ (writtenRequest code).data = (stringifyRequest code).data ++ ['\n']
    ∧ (writtenRequest code).data.count '\n' = 1
    ∧ splitNl (writtenRequest code).data = [(stringifyRequest code).data, []] := by
  have hnonl : '\n' ∉ (stringifyRequest code).data := by
    intro hmem
    unfold stringifyRequest at hmem
    rw [strData_append, strData_append] at hmem
    rcases List.mem_append.mp hmem with h | h
    · rcases List.mem_append.mp h with h2 | h2
      · exact absurd h2 (by decide)
      · exact newline_not_in_jsonQuote code h2
    · exact absurd h (by decide)
  have hdata : (writtenRequest code).data = (stringifyRequest code).data ++ ['\n'] := by
    unfold writtenRequest
    rw [strData_append]
  refine ⟨hnonl, hdata, ?_, ?_⟩
  · rw [hdata, List.count_append, List.count_eq_zero.mpr hnonl]
    decide
  · rw [hdata]
    exact splitNl_append_newline _ hnonl
